import Mathlib

/-!
A shallow embedding of the mem0-mcp tool server (src/index.ts): the JS value
model needed by the call-tool dispatch handler, the text-normalization and
score-rounding helpers, and the handler itself, parameterized by the outcome
of the external memory-store adapter (mem0ai client).
-/

namespace Mem0Mcp

/-! ### JavaScript value model

Arguments and memory-record fields arrive untyped from the protocol layer and
the external store.  We model the JS values the handler can actually touch.
JS numbers are modelled as exact rationals (every finite IEEE-754 double is a
rational); NaN is represented by `Option.none` at coercion sites. -/

inductive JVal where
  | jundefined
  | jnull
  | jbool (b : Bool)
  | jnum (q : ℚ)
  | jstr (s : String)
deriving DecidableEq, Repr

/-- JS truthiness (`if (v)`, `v || d`): undefined, null, false, 0 and the
empty string are falsy. -/
def truthy : JVal → Bool
  | .jundefined => false
  | .jnull => false
  | .jbool b => b
  | .jnum q => decide (q.num ≠ 0)
  | .jstr s => decide (s ≠ "")

/-- JS nullish coalescing `v ?? d`: the default applies only to
undefined and null. -/
def nullishDefault (v d : JVal) : JVal :=
  match v with
  | .jundefined => d
  | .jnull => d
  | x => x

/-! ### JS whitespace and the one-line normalizer

`normalizeOneLine` in the source is
`s.replace(/[\r\n\t]+/g, ' ').replace(/\s+/g, ' ').trim()`:
each maximal run of CR/LF/tab becomes one space, then each maximal run of
whitespace becomes one space, then leading/trailing whitespace is removed. -/

/-- The character class `[\r\n\t]` of the first regex. -/
def isCRLFTab (c : Char) : Bool :=
  c == '\r' || c == '\n' || c == '\t'

/-- The ECMAScript `\s` class (also the set removed by `String.prototype.trim`):
ASCII whitespace, NBSP, the Unicode space separators, line/paragraph
separators and the BOM. -/
def isJsWS (c : Char) : Bool :=
  c == ' ' || c == '\t' || c == '\n' || c == '\r' || c == '\u000B' || c == '\u000C'
    || c == '\u00A0' || c == '\u1680'
    || (decide (0x2000 ≤ c.toNat) && decide (c.toNat ≤ 0x200A))
    || c == '\u2028' || c == '\u2029' || c == '\u202F' || c == '\u205F'
    || c == '\u3000' || c == '\uFEFF'

/-- Worker for `collapseRuns`: `inRun` records whether the previous character
was part of a run already replaced by a space. -/
def collapseRunsAux (p : Char → Bool) : Bool → List Char → List Char
  | _, [] => []
  | inRun, c :: cs =>
      if p c then
        if inRun then collapseRunsAux p true cs
        else ' ' :: collapseRunsAux p true cs
      else c :: collapseRunsAux p false cs

/-- Model of the global regex replacement that substitutes a single space
for every maximal run of characters satisfying `p`. -/
def collapseRuns (p : Char → Bool) (l : List Char) : List Char :=
  collapseRunsAux p false l

/-- Model of String.prototype.trim: drop whitespace from both ends. -/
def trimWS (l : List Char) : List Char :=
  List.rdropWhile isJsWS (l.dropWhile isJsWS)

/-- The helper normalizeOneLine from src/index.ts: collapse CR/LF/tab runs
to spaces, collapse whitespace runs to single spaces, trim. -/
def normalizeOneLine (s : String) : String :=
  String.mk (trimWS (collapseRuns isJsWS (collapseRuns isCRLFTab s.toList)))

/-! ### Number coercion, rounding and printing -/

def digitsVal (cs : List Char) : Nat :=
  cs.foldl (fun n c => n * 10 + (c.toNat - 48)) 0

def parseDigits (cs : List Char) : Option Nat :=
  if cs.isEmpty then none
  else if cs.all Char.isDigit then some (digitsVal cs) else none

/-- Parse an unsigned decimal literal (digits, optionally with one decimal
point), the StrUnsignedDecimalLiteral fragment of the JS `Number(string)`
coercion that can arise here; `none` is NaN.  The value of `ip.frac` is
(ip·10^k + frac) / 10^k with k the number of fractional digits. -/
def parseUnsignedDec (cs : List Char) : Option ℚ :=
  let ip := cs.takeWhile (fun c => c ≠ '.')
  match cs.dropWhile (fun c => c ≠ '.') with
  | [] => (parseDigits ip).map (fun n => Rat.divInt (Int.ofNat n) 1)
  | _ :: frac =>
      if ip.isEmpty && frac.isEmpty then none
      else if ip.all Char.isDigit && frac.all Char.isDigit then
        some (Rat.divInt
          (Int.ofNat (digitsVal ip * Nat.pow 10 frac.length + digitsVal frac))
          (Int.ofNat (Nat.pow 10 frac.length)))
      else none

/-- Model of JS Number(string): trim whitespace, empty means 0, optional
sign, then a decimal literal; anything else is NaN (`none`). -/
def strToNumOpt (s : String) : Option ℚ :=
  match trimWS s.toList with
  | [] => some (Rat.divInt 0 1)
  | '-' :: rest => (parseUnsignedDec rest).map Rat.neg
  | '+' :: rest => parseUnsignedDec rest
  | cs => parseUnsignedDec cs

/-- Model of the JS Number(v) coercion; `none` is NaN (so Number.isFinite is
`Option.isSome` in this model). -/
def toNumber : JVal → Option ℚ
  | .jundefined => none
  | .jnull => some (Rat.divInt 0 1)
  | .jbool b => some (if b then Rat.divInt 1 1 else Rat.divInt 0 1)
  | .jnum q => some q
  | .jstr s => strToNumOpt s

/-- Nearest integer to q·1000, ties rounded up: with q = num/den this is
⌊(2000·num + den) / (2·den)⌋, computed by floor division on the numerator and
denominator. -/
def roundHalfUpMilli (q : ℚ) : ℤ :=
  Int.fdiv (2000 * q.num + Int.ofNat q.den) (2 * Int.ofNat q.den)

/-- Model of Number.prototype.toFixed(3) followed by re-parsing with Number:
the ECMAScript spec picks the integer n for which n / 10^3 is closest to the
value, ties to the larger n (round half up on the magnitude, sign restored),
and parsing the resulting decimal string back yields exactly n / 10^3. -/
def toFixed3 (q : ℚ) : ℚ :=
  if q.num < 0 then Rat.neg (Rat.divInt (roundHalfUpMilli (Rat.neg q)) 1000)
  else Rat.divInt (roundHalfUpMilli q) 1000

/-- The helper round from src/index.ts with its default precision p = 3:
coerce to a number, and round to 3 decimals when finite, otherwise return
the argument unchanged. -/
def round (n : JVal) : JVal :=
  match toNumber n with
  | some q => .jnum (toFixed3 q)
  | none => n

/-- Decimal digits of the fractional part r/d, most significant first,
stopping when the remainder hits 0 (or after `fuel` digits). -/
def fracDigits : Nat → Nat → Nat → List Char
  | 0, _, _ => []
  | _ + 1, 0, _ => []
  | fuel + 1, r, d => Char.ofNat (48 + r * 10 / d) :: fracDigits fuel (r * 10 % d) d

/-- JS number-to-string for the values this layer prints: integers print as
integers, terminating decimals print with no trailing zeros (e.g. 0.5 from
"0.500"), matching the shortest round-trip printing of such values. -/
def jsNumToString (q : ℚ) : String :=
  let sign := if q.num < 0 then "-" else ""
  let n := q.num.natAbs
  let d := q.den
  let frac := fracDigits 30 (n % d) d
  sign ++ toString (n / d) ++ (if frac.isEmpty then "" else "." ++ String.mk frac)

/-- Model of the JS String(v) coercion (also what a template literal
interpolates). -/
def jsString : JVal → String
  | .jundefined => "undefined"
  | .jnull => "null"
  | .jbool b => if b then "true" else "false"
  | .jnum q => jsNumToString q
  | .jstr s => s

/-! ### Protocol shapes and the memory-store adapter boundary -/

/-- One protocol content block: a type tag (always text here) and a text
payload. -/
structure ContentBlock where
  type : String
  text : String
deriving DecidableEq, Repr

/-- The uniform result shape of every tool invocation: content blocks plus
an error flag. -/
structure ToolResult where
  content : List ContentBlock
  isError : Bool
deriving DecidableEq, Repr

/-- A record of the external store's search result; both fields arrive
untyped. -/
structure MemoryRecord where
  memory : JVal
  score : JVal
deriving DecidableEq, Repr

/-- What the client search operation does on a given call: reject, resolve
to an array of records, or resolve to a non-array value. -/
inductive SearchResp where
  | raises
  | arr (rs : List MemoryRecord)
  | nonArray
deriving DecidableEq, Repr

/-- The behavior of the external mem0ai client for one invocation:
whether `memoryClient.add` resolves, and what `memoryClient.search` does.
The handler is parameterized by this boundary. -/
structure Adapter where
  addOk : Bool
  search : SearchResp
deriving DecidableEq, Repr

/-- What `searchMemories` hands to the dispatch handler: the resolved value,
with rejections already replaced by `[]`. -/
inductive SearchVal where
  | arr (rs : List MemoryRecord)
  | nonArray
deriving DecidableEq, Repr

/-- The helper addMemory from src/index.ts: forwards to the client add
operation and returns `true`, or catches the rejection (logging it) and
returns `false`. -/
def addMemory (a : Adapter) : Bool :=
  a.addOk

/-- The helper searchMemories from src/index.ts: forwards to the client
search operation and returns the results, or catches the rejection and
returns `[]`. -/
def searchMemories (a : Adapter) : SearchVal :=
  match a.search with
  | .raises => .arr []
  | .arr rs => .arr rs
  | .nonArray => .nonArray

/-! ### The call-tool dispatch handler -/

/-- The untyped `arguments` bag of a tool invocation; a missing key reads as
`undefined`. -/
abbrev Args := List (String × JVal)

def getArg (args : Args) (k : String) : JVal :=
  match args.lookup k with
  | some v => v
  | none => .jundefined

/-- The params of a CallToolRequest: tool name plus optional argument bag. -/
structure CallToolRequest where
  name : String
  arguments : Option Args
deriving DecidableEq, Repr

/-- A result with a single text content block, the only shape the handler ever
builds. -/
def textResult (t : String) (isErr : Bool) : ToolResult :=
  { content := [{ type := "text", text := t }], isError := isErr }

/-- The result built by the catch-all boundary from a thrown error message. -/
def errorResult (msg : String) : ToolResult :=
  textResult ("Error: " ++ msg) true

/-- The rendering of one record on the returnAll path: the normalized
stringified memory field, then the literal relevance tag, then the rounded
score; absent memory defaults to the empty string and absent score to 0. -/
def formatRecord (r : MemoryRecord) : String :=
  normalizeOneLine (jsString (nullishDefault r.memory (.jstr "")))
    ++ " (relevance: "
    ++ jsString (round (nullishDefault r.score (.jnum (Rat.divInt 0 1))))
    ++ ")"

/-- The join of the first at-most-5 rendered records, separated by
semicolon-space. -/
def formatAll (rs : List MemoryRecord) : String :=
  String.intercalate "; " ((rs.take 5).map formatRecord)

/-- The body of the CallToolRequestSchema handler, up to the catch-all
boundary; `Except.error` carries the message of a thrown `Error` (the only
`throw` on these paths is the missing-arguments check). -/
def handleCallToolBody (a : Adapter) (req : CallToolRequest) :
    Except String ToolResult :=
  match req.arguments with
  | none => .error "No arguments provided"
  | some args =>
      if req.name = "add-memory" then
        let _ := addMemory a
        .ok (textResult "Memory added successfully" false)
      else if req.name = "search-memories" then
        match searchMemories a with
        | .nonArray => .ok (textResult "No memories found" false)
        | .arr [] => .ok (textResult "No memories found" false)
        | .arr (r0 :: rest) =>
            if truthy (getArg args "returnAll") then
              let formatted := formatAll (r0 :: rest)
              .ok (textResult
                (if formatted = "" then "No memories found" else formatted)
                false)
            else
              let memory :=
                normalizeOneLine (jsString (nullishDefault r0.memory (.jstr "")))
              .ok (textResult
                (if memory = "" then "No relevant memory found" else memory)
                false)
      else
        .ok (textResult ("Unknown tool: " ++ req.name) true)

/-- The registered CallToolRequestSchema handler: the body wrapped in the
try/catch boundary. -/
def handleCallTool (a : Adapter) (req : CallToolRequest) : ToolResult :=
  match handleCallToolBody a req with
  | .ok r => r
  | .error msg => errorResult msg

/-- The two-record adapter result of the spec's worked example, with the
scores the records carry at runtime: the IEEE-754 doubles denoted by the
literals 0.8765 and 0.5 (the former is 7894810146780479/2^53, slightly below
8765/10000). -/
def exRecords : List MemoryRecord :=
  [ { memory := .jstr "Loves\n\nhiking",
      score := .jnum (Rat.divInt 7894810146780479 9007199254740992) },
    { memory := .jstr "Owns a dog", score := .jnum (Rat.divInt 1 2) } ]

/-! ### Helper lemmas shared by several claims -/

theorem handleCallTool_shape (a : Adapter) (req : CallToolRequest) :
    ∃ t b, handleCallTool a req = textResult t b := by
  rcases req with ⟨name, args⟩
  cases args with
  | none => exact ⟨"Error: No arguments provided", true, rfl⟩
  | some args =>
      unfold handleCallTool handleCallToolBody
      by_cases h1 : name = "add-memory"
      · exact ⟨"Memory added successfully", false, by simp [h1]⟩
      · by_cases h2 : name = "search-memories"
        · rcases ha : a.search with _ | rs | _
          · exact ⟨"No memories found", false,
              by simp [h1, h2, searchMemories, ha]⟩
          · cases rs with
            | nil => exact ⟨"No memories found", false,
                by simp [h1, h2, searchMemories, ha]⟩
            | cons r0 rest =>
                by_cases h3 : truthy (getArg args "returnAll")
                · by_cases h4 : formatAll (r0 :: rest) = ""
                  · exact ⟨"No memories found", false,
                      by simp [h1, h2, searchMemories, ha, h3, h4]⟩
                  · exact ⟨formatAll (r0 :: rest), false,
                      by simp [h1, h2, searchMemories, ha, h3, h4]⟩
                · by_cases h4 :
                      normalizeOneLine (jsString (nullishDefault r0.memory (.jstr ""))) = ""
                  · exact ⟨"No relevant memory found", false,
                      by simp [h1, h2, searchMemories, ha, h3, h4]⟩
                  · exact ⟨normalizeOneLine (jsString (nullishDefault r0.memory (.jstr ""))),
                      false, by simp [h1, h2, searchMemories, ha, h3, h4]⟩
          · exact ⟨"No memories found", false,
              by simp [h1, h2, searchMemories, ha]⟩
        · exact ⟨"Unknown tool: " ++ name, true, by simp [h1, h2]⟩

/-! ### C1 -/

/-- C1 counterexample: a call whose adapter add operation fails (rejects) is
not converted into a ToolResult with isError true — the handler returns the
success-shaped confirmation with isError false, refuting the claim that every
failure path (including adapter failure) yields isError: true. -/
theorem dispatch_error_flag_counterexample :
    handleCallTool { addOk := false, search := .raises }
      { name := "add-memory",
        arguments := some [("content", .jstr "hi"), ("userId", .jstr "u")] }
      = textResult "Memory added successfully" false
    ∧ (handleCallTool { addOk := false, search := .raises }
        { name := "add-memory",
          arguments := some [("content", .jstr "hi"), ("userId", .jstr "u")] }).isError
      = false := by
  exact ⟨by decide, by decide⟩

/-- C1 (amended): the dispatch handler is total — for every adapter behavior
and request it returns a ToolResult with a single text block; absent arguments
and unknown tool names yield isError true, while adapter failures on the
add-memory path are caught and surface as an isError-false success result. -/
theorem dispatch_containment (a : Adapter) (req : CallToolRequest) :
    (∃ t b, handleCallTool a req = textResult t b)
    ∧ (req.arguments = none →
        handleCallTool a req = errorResult "No arguments provided")
    ∧ (∀ args, req.arguments = some args → req.name ≠ "add-memory" →
        req.name ≠ "search-memories" → (handleCallTool a req).isError = true)
    ∧ (∀ args, req.arguments = some args → req.name = "add-memory" →
        (handleCallTool a req).isError = false) := by
  refine ⟨handleCallTool_shape a req, ?_, ?_, ?_⟩
  · intro h
    rcases req with ⟨name, args⟩
    cases args with
    | none => rfl
    | some args => simp at h
  · intro args h h1 h2
    rcases req with ⟨name, args0⟩
    cases h
    simp [handleCallTool, handleCallToolBody, h1, h2, textResult]
  · intro args h h1
    rcases req with ⟨name, args0⟩
    cases h
    simp only at h1
    subst h1
    simp [handleCallTool, handleCallToolBody, textResult]

/-- C1 witness: the containment theorem applied to a concrete request with
absent arguments. -/
theorem dispatch_containment_witness :
    handleCallTool { addOk := false, search := .raises }
      { name := "add-memory", arguments := none }
      = errorResult "No arguments provided" :=
  (dispatch_containment { addOk := false, search := .raises }
    { name := "add-memory", arguments := none }).2.1 rfl

/-! ### C2 -/

/-- C2: an add-memory invocation with non-empty string content and userId
returns the fixed success result, for every adapter behavior — including a
failing add operation. -/
theorem add_memory_always_success (a : Adapter) (args : Args) (c u : String)
    (_hc : args.lookup "content" = some (.jstr c)) (_hcne : c ≠ "")
    (_hu : args.lookup "userId" = some (.jstr u)) (_hune : u ≠ "") :
    handleCallTool a { name := "add-memory", arguments := some args }
      = textResult "Memory added successfully" false := rfl

/-- C2 witness: a concrete add-memory call against an adapter whose add
operation fails still reports success. -/
theorem add_memory_always_success_witness :
    handleCallTool { addOk := false, search := .raises }
      { name := "add-memory",
        arguments := some [("content", .jstr "hello"), ("userId", .jstr "u1")] }
      = textResult "Memory added successfully" false :=
  add_memory_always_success { addOk := false, search := .raises }
    [("content", .jstr "hello"), ("userId", .jstr "u1")] "hello" "u1"
    (by decide) (by decide) (by decide) (by decide)

/-! ### C3 -/

/-- C3 counterexample: on the spec's worked example the rendered score of the
first record is 0.876, not 0.877 — the literal 0.8765 denotes the IEEE-754
double 7894810146780479/2^53 = 0.87649999999999994…, whose toFixed(3) picks
876 as the closest thousandth. -/
theorem search_return_all_example_counterexample :
    handleCallTool { addOk := true, search := .arr exRecords }
        { name := "search-memories",
          arguments := some
            [("query", .jstr "q"), ("userId", .jstr "u"), ("returnAll", .jbool true)] }
      = textResult "Loves hiking (relevance: 0.876); Owns a dog (relevance: 0.5)" false
    ∧ handleCallTool { addOk := true, search := .arr exRecords }
        { name := "search-memories",
          arguments := some
            [("query", .jstr "q"), ("userId", .jstr "u"), ("returnAll", .jbool true)] }
      ≠ textResult "Loves hiking (relevance: 0.877); Owns a dog (relevance: 0.5)" false := by
  exact ⟨by decide, by decide⟩

/-- C3 (amended): with returnAll = true and a non-empty adapter result list,
the text is built from at most the first 5 records in order, each rendered as
"<normalized memory> (relevance: <score>)" and joined with "; ", falling back
to "No memories found" if the join is empty; on the worked example the output
is "Loves hiking (relevance: 0.876); Owns a dog (relevance: 0.5)" since the
score literal 0.8765 denotes a double slightly below 876.5/1000. -/
theorem search_return_all_format (a : Adapter) (args : Args)
    (rs : List MemoryRecord) (hs : a.search = .arr rs) (hne : rs ≠ [])
    (hra : getArg args "returnAll" = .jbool true) :
    handleCallTool a { name := "search-memories", arguments := some args }
      = textResult
          (if String.intercalate "; " ((rs.take 5).map formatRecord) = ""
           then "No memories found"
           else String.intercalate "; " ((rs.take 5).map formatRecord)) false := by
  cases rs with
  | nil => exact absurd rfl hne
  | cons r0 rest =>
      simp [handleCallTool, handleCallToolBody, searchMemories, hs, hra, truthy,
        formatAll]

/-- C3 witness: the format theorem applied to the worked example, with the
join evaluated to its literal value. -/
theorem search_return_all_format_witness :
    handleCallTool { addOk := true, search := .arr exRecords }
        { name := "search-memories",
          arguments := some
            [("query", .jstr "q"), ("userId", .jstr "u"), ("returnAll", .jbool true)] }
      = textResult "Loves hiking (relevance: 0.876); Owns a dog (relevance: 0.5)" false :=
  (search_return_all_format { addOk := true, search := .arr exRecords }
      [("query", .jstr "q"), ("userId", .jstr "u"), ("returnAll", .jbool true)]
      exRecords rfl (by decide) (by decide)).trans (by decide)

/-! ### C4 -/

/-- C4: with returnAll false or omitted and a non-empty adapter result list,
the text is exactly the first record's memory text normalized to one line,
with no score, falling back to "No relevant memory found" when the normalized
text is empty. -/
theorem search_default_top_one (a : Adapter) (args : Args) (r0 : MemoryRecord)
    (rest : List MemoryRecord) (hs : a.search = .arr (r0 :: rest))
    (hra : getArg args "returnAll" = .jundefined ∨ getArg args "returnAll" = .jbool false) :
    handleCallTool a { name := "search-memories", arguments := some args }
      = textResult
          (if normalizeOneLine (jsString (nullishDefault r0.memory (.jstr ""))) = ""
           then "No relevant memory found"
           else normalizeOneLine (jsString (nullishDefault r0.memory (.jstr "")))) false := by
  rcases hra with hra | hra <;>
    simp [handleCallTool, handleCallToolBody, searchMemories, hs, hra, truthy]

/-- C4 witness: on the worked example with returnAll omitted the output text
is exactly "Loves hiking". -/
theorem search_default_top_one_witness :
    handleCallTool { addOk := true, search := .arr exRecords }
        { name := "search-memories",
          arguments := some [("query", .jstr "q"), ("userId", .jstr "u")] }
      = textResult "Loves hiking" false :=
  (search_default_top_one { addOk := true, search := .arr exRecords }
      [("query", .jstr "q"), ("userId", .jstr "u")]
      { memory := .jstr "Loves\n\nhiking",
        score := .jnum (Rat.divInt 7894810146780479 9007199254740992) }
      [{ memory := .jstr "Owns a dog", score := .jnum (Rat.divInt 1 2) }]
      rfl (Or.inl (by decide))).trans (by decide)

/-! ### C5 -/

/-- C5 counterexample: with absent arguments the error text is
"Error: No arguments provided" — with a capital N, coming from the message
of the thrown error — not "Error: no arguments provided". -/
theorem no_arguments_text_counterexample :
    handleCallTool { addOk := true, search := .arr [] }
        { name := "add-memory", arguments := none }
      = textResult "Error: No arguments provided" true
    ∧ handleCallTool { addOk := true, search := .arr [] }
        { name := "add-memory", arguments := none }
      ≠ textResult "Error: no arguments provided" true := by
  exact ⟨by decide, by decide⟩

/-- C5 (amended): every invocation with an absent arguments field returns
isError true with the single text block "Error: No arguments provided"
(capital N, the message of the thrown Error passed through the catch-all). -/
theorem no_arguments_error (a : Adapter) (name : String) :
    handleCallTool a { name := name, arguments := none }
      = textResult "Error: No arguments provided" true := rfl

/-! ### C6 -/

/-- C6 counterexample: a record whose score is the non-numeric string "abc"
is rendered with its original value — "(relevance: abc)" — not with a default
of 0, refuting the claim that non-numeric scores render as 0. -/
theorem score_coercion_counterexample :
    handleCallTool ⟨true, .arr [{ memory := .jstr "m", score := .jstr "abc" }]⟩
        { name := "search-memories",
          arguments := some
            [("query", .jstr "q"), ("userId", .jstr "u"), ("returnAll", .jbool true)] }
      = textResult "m (relevance: abc)" false
    ∧ handleCallTool ⟨true, .arr [{ memory := .jstr "m", score := .jstr "abc" }]⟩
        { name := "search-memories",
          arguments := some
            [("query", .jstr "q"), ("userId", .jstr "u"), ("returnAll", .jbool true)] }
      ≠ textResult "m (relevance: 0)" false := by
  exact ⟨by decide, by decide⟩

/-- C6 (amended): the score coercion never fails and defaults an absent
(undefined or null) score to 0; a numerically coercible score is rounded to 3
decimals; but a score whose Number coercion is NaN is rendered unchanged
rather than defaulted to 0. -/
theorem score_coercion_policy :
    round (nullishDefault .jundefined (.jnum (Rat.divInt 0 1))) = .jnum (Rat.divInt 0 1)
    ∧ round (nullishDefault .jnull (.jnum (Rat.divInt 0 1))) = .jnum (Rat.divInt 0 1)
    ∧ (∀ q : ℚ, round (.jnum q) = .jnum (toFixed3 q))
    ∧ (∀ v : JVal, toNumber v = none → round v = v) := by
  refine ⟨by decide, by decide, fun q => rfl, fun v hv => ?_⟩
  unfold round
  rw [hv]

/-- C6 witness: the policy theorem applied to the NaN-coercing score "abc". -/
theorem score_coercion_policy_witness :
    round (.jstr "abc") = .jstr "abc" :=
  score_coercion_policy.2.2.2 (.jstr "abc") (by decide)

/-! ### C7 -/

/-- C7: when the adapter's search rejects or resolves to an empty list, the
result is isError false with text exactly "No memories found" — failure and
emptiness are indistinguishable. -/
theorem search_empty_or_failure (a : Adapter) (args : Args)
    (h : a.search = .raises ∨ a.search = .arr []) :
    handleCallTool a { name := "search-memories", arguments := some args }
      = textResult "No memories found" false := by
  rcases h with h | h <;>
    simp [handleCallTool, handleCallToolBody, searchMemories, h]

/-- C7 witness: a concrete search against an adapter whose search rejects. -/
theorem search_empty_or_failure_witness :
    handleCallTool { addOk := true, search := .raises }
        { name := "search-memories",
          arguments := some [("query", .jstr "q"), ("userId", .jstr "u")] }
      = textResult "No memories found" false :=
  search_empty_or_failure { addOk := true, search := .raises }
    [("query", .jstr "q"), ("userId", .jstr "u")] (Or.inl rfl)

/-! ### C8 -/

/-- C8: an invocation with present arguments and a tool name that is neither
add-memory nor search-memories returns isError true with text
"Unknown tool: <name>", as a result rather than an exception. -/
theorem unknown_tool_result (a : Adapter) (args : Args) (name : String)
    (h1 : name ≠ "add-memory") (h2 : name ≠ "search-memories") :
    handleCallTool a { name := name, arguments := some args }
      = textResult ("Unknown tool: " ++ name) true := by
  simp [handleCallTool, handleCallToolBody, h1, h2]

/-- C8 witness: tool name delete-memory yields "Unknown tool: delete-memory". -/
theorem unknown_tool_result_witness :
    handleCallTool { addOk := true, search := .arr [] }
        { name := "delete-memory", arguments := some [] }
      = textResult "Unknown tool: delete-memory" true :=
  (unknown_tool_result { addOk := true, search := .arr [] } [] "delete-memory"
      (by decide) (by decide)).trans (by decide)

/-! ### C10 -/

/-- C10: every ToolResult the dispatch handler returns — success or error, on
every branch, for every adapter behavior — contains exactly one content
block, and that block has type "text". -/
theorem result_single_text_block (a : Adapter) (req : CallToolRequest) :
    ∃ t, (handleCallTool a req).content = [{ type := "text", text := t }] := by
  obtain ⟨t, b, h⟩ := handleCallTool_shape a req
  exact ⟨t, by rw [h]; rfl⟩

/-! ### C9: idempotence of the one-line normalizer

After one pass, every whitespace character left in the text is a single
space, no two adjacent characters are both whitespace, and the ends are not
whitespace; each stage of a second pass is then the identity. -/

theorem isJsWS_of_isCRLFTab {c : Char} (h : isCRLFTab c = true) :
    isJsWS c = true := by
  simp only [isCRLFTab, Bool.or_eq_true, beq_iff_eq] at h
  rcases h with (h | h) | h <;> subst h <;> decide

theorem collapseRunsAux_true_shape (p : Char → Bool) (l : List Char) :
    collapseRunsAux p true l = [] ∨
      ∃ d t, collapseRunsAux p true l = d :: t ∧ p d = false := by
  induction l with
  | nil => exact Or.inl rfl
  | cons c cs ih =>
      by_cases h : p c
      · simpa [collapseRunsAux, h] using ih
      · exact Or.inr ⟨c, collapseRunsAux p false cs,
          by simp [collapseRunsAux, h], by simpa using h⟩

theorem collapseRunsAux_ws_space (l : List Char) :
    ∀ inRun, ∀ c ∈ collapseRunsAux isJsWS inRun l, isJsWS c = true → c = ' ' := by
  induction l with
  | nil => intro inRun c hc; simp [collapseRunsAux] at hc
  | cons c cs ih =>
      intro inRun d hd hw
      by_cases h : isJsWS c
      · cases inRun with
        | true =>
            rw [show collapseRunsAux isJsWS true (c :: cs)
                = collapseRunsAux isJsWS true cs by simp [collapseRunsAux, h]] at hd
            exact ih true d hd hw
        | false =>
            rw [show collapseRunsAux isJsWS false (c :: cs)
                = ' ' :: collapseRunsAux isJsWS true cs by simp [collapseRunsAux, h]] at hd
            rcases List.mem_cons.mp hd with hd | hd
            · exact hd
            · exact ih true d hd hw
      · rw [show collapseRunsAux isJsWS inRun (c :: cs)
            = c :: collapseRunsAux isJsWS false cs by simp [collapseRunsAux, h]] at hd
        rcases List.mem_cons.mp hd with hd | hd
        · subst hd; exact absurd hw (by simpa using h)
        · exact ih false d hd hw

theorem collapseRunsAux_chain (l : List Char) :
    ∀ inRun, (collapseRunsAux isJsWS inRun l).Chain'
      (fun a b => ¬(isJsWS a = true ∧ isJsWS b = true)) := by
  induction l with
  | nil => intro inRun; simp [collapseRunsAux]
  | cons c cs ih =>
      intro inRun
      by_cases h : isJsWS c
      · cases inRun with
        | true =>
            rw [show collapseRunsAux isJsWS true (c :: cs)
                = collapseRunsAux isJsWS true cs by simp [collapseRunsAux, h]]
            exact ih true
        | false =>
            rw [show collapseRunsAux isJsWS false (c :: cs)
                = ' ' :: collapseRunsAux isJsWS true cs by simp [collapseRunsAux, h]]
            rw [List.chain'_cons']
            refine ⟨?_, ih true⟩
            intro y hy
            rcases collapseRunsAux_true_shape isJsWS cs with hsh | ⟨d, t, hsh, hd⟩
            · rw [hsh] at hy; simp at hy
            · rw [hsh] at hy
              simp only [List.head?_cons, Option.mem_def, Option.some.injEq] at hy
              subst hy
              intro hcon
              rw [hd] at hcon
              exact Bool.false_ne_true hcon.2
      · rw [show collapseRunsAux isJsWS inRun (c :: cs)
            = c :: collapseRunsAux isJsWS false cs by simp [collapseRunsAux, h]]
        rw [List.chain'_cons']
        refine ⟨?_, ih false⟩
        intro y hy hcon
        exact h (by simpa using hcon.1)

theorem collapseRunsAux_eq_self (p : Char → Bool) (l : List Char)
    (h : ∀ c ∈ l, p c = false) : collapseRunsAux p false l = l := by
  induction l with
  | nil => rfl
  | cons c cs ih =>
      have hc : p c = false := h c (List.mem_cons_self c cs)
      rw [show collapseRunsAux p false (c :: cs)
          = c :: collapseRunsAux p false cs by simp [collapseRunsAux, hc]]
      rw [ih fun d hd => h d (List.mem_cons_of_mem c hd)]

theorem collapseRunsAux_clean_eq_self (l : List Char)
    (hspace : ∀ c ∈ l, isJsWS c = true → c = ' ')
    (hchain : l.Chain' fun a b => ¬(isJsWS a = true ∧ isJsWS b = true)) :
    collapseRunsAux isJsWS false l = l := by
  induction l with
  | nil => rfl
  | cons c cs ih =>
      have htl : collapseRunsAux isJsWS false cs = cs :=
        ih (fun d hd => hspace d (List.mem_cons_of_mem c hd)) hchain.tail
      by_cases h : isJsWS c
      · have hc : c = ' ' := hspace c (List.mem_cons_self c cs) h
        rw [show collapseRunsAux isJsWS false (c :: cs)
            = ' ' :: collapseRunsAux isJsWS true cs by simp [collapseRunsAux, h]]
        rw [← hc]
        cases cs with
        | nil => rfl
        | cons d t =>
            have hd : isJsWS d = false := by
              have := (List.chain'_cons.mp hchain).1
              by_contra hcon
              exact this ⟨h, by simpa using hcon⟩
            rw [show collapseRunsAux isJsWS true (d :: t)
                = d :: collapseRunsAux isJsWS false t by simp [collapseRunsAux, hd]]
            rw [show collapseRunsAux isJsWS false (d :: t)
                = d :: collapseRunsAux isJsWS false t by simp [collapseRunsAux, hd]] at htl
            rw [htl]
      · rw [show collapseRunsAux isJsWS false (c :: cs)
            = c :: collapseRunsAux isJsWS false cs by simp [collapseRunsAux, h]]
        rw [htl]

theorem mem_of_mem_trimWS {l : List Char} {c : Char} (h : c ∈ trimWS l) :
    c ∈ l := by
  rw [trimWS, List.rdropWhile] at h
  rw [List.mem_reverse] at h
  have h2 := (List.dropWhile_suffix (l := (List.dropWhile isJsWS l).reverse)
    (p := isJsWS)).sublist.subset h
  rw [List.mem_reverse] at h2
  exact (List.dropWhile_suffix (p := isJsWS)).sublist.subset h2

theorem chain'_trimWS {l : List Char}
    (h : l.Chain' fun a b => ¬(isJsWS a = true ∧ isJsWS b = true)) :
    (trimWS l).Chain' fun a b => ¬(isJsWS a = true ∧ isJsWS b = true) := by
  have hsym : ∀ a b : Char, ¬(isJsWS a = true ∧ isJsWS b = true) →
      ¬(isJsWS b = true ∧ isJsWS a = true) := fun a b hab ⟨h1, h2⟩ => hab ⟨h2, h1⟩
  have h1 : (List.dropWhile isJsWS l).Chain'
      (fun a b => ¬(isJsWS a = true ∧ isJsWS b = true)) :=
    h.suffix (List.dropWhile_suffix isJsWS)
  have h2 : ((List.dropWhile isJsWS l).reverse).Chain'
      (fun a b => ¬(isJsWS a = true ∧ isJsWS b = true)) := by
    rw [List.chain'_reverse]
    exact h1.imp fun a b hab => hsym a b hab
  have h3 := h2.suffix (List.dropWhile_suffix isJsWS)
  rw [trimWS, List.rdropWhile, List.chain'_reverse]
  exact h3.imp fun a b hab => hsym a b hab

theorem trimWS_head_not (l : List Char) :
    trimWS l = [] ∨ ∃ d t, trimWS l = d :: t ∧ isJsWS d = false := by
  rw [trimWS]
  rcases hy : List.dropWhile isJsWS l with _ | ⟨d, t⟩
  · exact Or.inl (by simp)
  · have hd : isJsWS d = false := by
      have hne : List.dropWhile isJsWS l ≠ [] := by rw [hy]; simp
      have hh := List.head_dropWhile_not isJsWS l hne
      rw [show (List.dropWhile isJsWS l).head hne = d by rw [List.head_eq_iff_head?_eq_some]; rw [hy]; rfl] at hh
      simpa using hh
    rcases hrd : List.rdropWhile isJsWS (d :: t) with _ | ⟨e, t2⟩
    · exact Or.inl rfl
    · have hp := List.rdropWhile_prefix isJsWS (d :: t)
      rw [hrd] at hp
      obtain ⟨u, hu⟩ := hp
      rw [List.cons_append, List.cons.injEq] at hu
      exact Or.inr ⟨e, t2, rfl, hu.1 ▸ hd⟩

theorem trimWS_idem (l : List Char) : trimWS (trimWS l) = trimWS l := by
  have h1 : List.dropWhile isJsWS (trimWS l) = trimWS l := by
    rcases trimWS_head_not l with h | ⟨d, t, h, hd⟩
    · rw [h]; rfl
    · rw [h, List.dropWhile_cons, hd]
      simp
  show List.rdropWhile isJsWS (List.dropWhile isJsWS (trimWS l)) = trimWS l
  rw [h1, trimWS, List.rdropWhile_idempotent]

/-- C9: the one-line normalizer is idempotent — normalizing an already
normalized string returns it unchanged. -/
theorem normalizeOneLine_idem (s : String) :
    normalizeOneLine (normalizeOneLine s) = normalizeOneLine s := by
  have hspace : ∀ c ∈ trimWS (collapseRuns isJsWS (collapseRuns isCRLFTab s.toList)),
      isJsWS c = true → c = ' ' := fun c hc hw =>
    collapseRunsAux_ws_space (collapseRuns isCRLFTab s.toList) false c
      (mem_of_mem_trimWS hc) hw
  have hchain := chain'_trimWS
    (collapseRunsAux_chain (collapseRuns isCRLFTab s.toList) false)
  have hT : collapseRuns isCRLFTab
      (trimWS (collapseRuns isJsWS (collapseRuns isCRLFTab s.toList)))
      = trimWS (collapseRuns isJsWS (collapseRuns isCRLFTab s.toList)) := by
    apply collapseRunsAux_eq_self
    intro c hc
    by_contra hcon
    have hct : isCRLFTab c = true := by simpa using hcon
    have hsp := hspace c hc (isJsWS_of_isCRLFTab hct)
    subst hsp
    exact absurd hct (by decide)
  have hWS : collapseRuns isJsWS
      (trimWS (collapseRuns isJsWS (collapseRuns isCRLFTab s.toList)))
      = trimWS (collapseRuns isJsWS (collapseRuns isCRLFTab s.toList)) :=
    collapseRunsAux_clean_eq_self _ hspace hchain
  show String.mk (trimWS (collapseRuns isJsWS (collapseRuns isCRLFTab
      (trimWS (collapseRuns isJsWS (collapseRuns isCRLFTab s.toList))))))
    = String.mk (trimWS (collapseRuns isJsWS (collapseRuns isCRLFTab s.toList)))
  rw [hT, hWS, trimWS_idem]

end Mem0Mcp
